import Mathlib

/-!
Verification of the `xrpl-rs` wire-format codec (`src/types/mod.rs`).

The Rust source defines serde-based encoders/decoders for the XRPL JSON wire
format.  This file gives a shallow embedding of that codec: a `Json` value
type standing for `serde_json::Value`, Lean translations of each `Serialize`
and `Deserialize` implementation (derived implementations are translated
following serde's documented semantics for the representation in use:
struct visitors over map entries, untagged unions as an ordered attempt
list, the internally tagged representation for `LedgerEntry`, the externally
tagged representation for `RequestId`), and theorems about those
translations.

Modelling conventions:
* Rust machine integers (`u8`, `u16`, `u32`, `u64`) are `Nat` with explicit
  range checks where the code performs them; theorems that quantify over
  Rust values carry the corresponding range hypotheses.
* JSON numbers are modelled as `Int` (the non-integral `f64` case of
  `serde_json::Number` is not used by any decoder in scope: every numeric
  visitor in the source types rejects it).
* Fallible decoding returns `Option`; `none` stands for a serde error (the
  error message text is not modelled).
* JSON texts are modelled already parsed, as `Json` values; objects are
  ordered association lists, as in `serde_json`'s map visitor.
-/

namespace XrplRs

/-- Model of `serde_json::Value`. -/
inductive Json where
  | null
  | bool (b : Bool)
  | num (n : Int)
  | str (s : String)
  | arr (elems : List Json)
  | obj (fields : List (String × Json))

/-! ## Data model (the Rust types, field for field) -/

/-- Model of `pub struct Drops(u64)` (src line 99).  The `u64` payload is a
`Nat`; theorems quantifying over Rust values assume `val < 2 ^ 64`. -/
structure Drops where
  val : Nat
deriving DecidableEq

/-- Model of `pub struct IssuedCurrencyAmount` (src lines 167-172). -/
structure IssuedCurrencyAmount where
  value : String
  currency : String
  issuer : String
deriving DecidableEq

/-- Model of `pub enum CurrencyAmount` (src lines 154-159), declaration
order preserved: `XRP` before `IssuedCurrency`. -/
inductive CurrencyAmount where
  | XRP (drops : Drops)
  | IssuedCurrency (amount : IssuedCurrencyAmount)
deriving DecidableEq

/-- Model of `pub enum RequestId` (src lines 23-29). -/
inductive RequestId where
  | Number (n : Nat)
  | String (s : String)
deriving DecidableEq

/-! ## Primitive decoders

These model the `Deserialize` implementations of the primitive Rust field
types as `serde_json` drives them: each visitor accepts exactly the JSON
shape of the corresponding Rust type. -/

/-- Model of `String::deserialize`: only a JSON string is accepted. -/
def decodeString : Json → Option String
  | .str s => some s
  | _ => none

/-- Model of `bool::deserialize`: only a JSON boolean is accepted. -/
def decodeBool : Json → Option Bool
  | .bool b => some b
  | _ => none

/-- Model of the unsigned-integer `Deserialize` impls (`u8`/`u16`/`u32`/
`u64`): a JSON integer in `[0, bound)` is accepted, everything else is a
type or range error. -/
def decodeUInt (bound : Nat) : Json → Option Nat
  | .num i => if 0 ≤ i ∧ i < (bound : Int) then some i.toNat else none
  | _ => none

def decodeU8 : Json → Option Nat := decodeUInt (2 ^ 8)
def decodeU32 : Json → Option Nat := decodeUInt (2 ^ 32)
def decodeU64 : Json → Option Nat := decodeUInt (2 ^ 64)

/-- Model of `Option::<T>::deserialize`: JSON `null` gives `none`, any other
value is decoded by the inner decoder.  A missing field is handled by the
struct visitors below, not here. -/
def decodeOption (dec : Json → Option α) : Json → Option (Option α)
  | .null => some none
  | j => (dec j).map some

/-- Model of `Vec::<Value>::deserialize`: a JSON array, elementwise
identity. -/
def decodeValueList : Json → Option (List Json)
  | .arr xs => some xs
  | _ => none

/-- One slot update of a derived struct map visitor: a slot that is already
filled is a duplicate-field error, a failing value decode propagates, and
otherwise the decoded value fills the slot. -/
def setSlot (slot : Option α) (dec : Option α) : Option (Option α) :=
  match slot, dec with
  | none, some x => some (some x)
  | _, _ => none


/-! ## Drops codec (src lines 101-152) -/

/-- Value of a digit string, most significant digit first. -/
def digitsToNat (cs : List Char) : Nat :=
  cs.foldl (fun a c => a * 10 + (c.toNat - 48)) 0

/-- Model of the sign handling in Rust's `u64::from_str`: for an unsigned
type, a single leading `'+'` is stripped; a leading `'-'` is not (it fails
as an invalid digit below). -/
def stripPlus : List Char → List Char
  | [] => []
  | c :: rest => if c = '+' then rest else c :: rest

/-- Model of `str::parse::<u64>` (Rust `u64::from_str`): after optional
`'+'`, at least one ASCII digit and nothing else, with the value fitting in
64 bits; the empty string, a stray sign, any non-digit character and
overflow all fail. -/
def parseU64 (s : String) : Option Nat :=
  let cs := stripPlus s.data
  if cs = [] then none
  else if cs.all Char.isDigit then
    let n := digitsToNat cs
    if n < 2 ^ 64 then some n else none
  else none

/-- Model of `impl Deserialize for Drops` (src lines 110-136):
`deserialize_str` with `DropsVisitor`, which implements only `visit_str`
and parses via `TryFrom<&str>` (src lines 146-152).  Any non-string JSON
value reaches a visitor method `DropsVisitor` does not implement and
fails. -/
def decodeDrops : Json → Option Drops
  | .str s => (parseU64 s).map Drops.mk
  | _ => none

/-- Decimal digit accumulator, modelling the digit loop of Rust's
`fmt::Display` for unsigned integers (repeated division by 10, least
significant digit first, pushed onto the front of the accumulator). -/
def toDecimalAux (n : Nat) (acc : List Char) : List Char :=
  let acc' := Char.ofNat (48 + n % 10) :: acc
  if _h : n < 10 then acc' else toDecimalAux (n / 10) acc'
termination_by n
decreasing_by exact Nat.div_lt_self (by omega) (by omega)

/-- Model of `format!("{}", n)` for an unsigned integer: its decimal
string. -/
def toDecimal (n : Nat) : String :=
  String.mk (toDecimalAux n [])

/-- Model of `impl Serialize for Drops` (src lines 101-108):
`serialize_str(&format!("{}", self.0))` — always a JSON string, never a
JSON number. -/
def serializeDrops (d : Drops) : Json :=
  .str (toDecimal d.val)

/-! ## CurrencyAmount codec (src lines 154-172)

`CurrencyAmount` is `#[serde(untagged)]`: deserialization buffers the input
and tries the variants in declaration order against serde's content
deserializer — `XRP(Drops)` first, then `IssuedCurrency`.  The derived
struct visitor for `IssuedCurrencyAmount` walks the buffered entries in
order: a known field that is already set is a duplicate-field error, an
unknown field is skipped (`IgnoredAny`), and at the end every field must
have been seen.  Serde's content deserializer also feeds a *sequence* to a
struct visitor (fields taken positionally, length must match exactly), so a
JSON array can decode as the issued record. -/

/-- One entry of the derived `IssuedCurrencyAmount` map visitor: a known
key whose slot is already filled is a duplicate-field error, a known key
decodes its value into the slot, an unknown key is skipped. -/
def issuedStep (v c i : Option String) (k : String) (j : Json) :
    Option (Option String × Option String × Option String) :=
  if k = "value" then
    (setSlot v (decodeString j)).map fun s => (s, c, i)
  else if k = "currency" then
    (setSlot c (decodeString j)).map fun s => (v, s, i)
  else if k = "issuer" then
    (setSlot i (decodeString j)).map fun s => (v, c, s)
  else some (v, c, i)

/-- End of the `IssuedCurrencyAmount` map visitor: every field must have
been seen. -/
def issuedFinish (v c i : Option String) : Option IssuedCurrencyAmount :=
  match v, c, i with
  | some v, some c, some i => some ⟨v, c, i⟩
  | _, _, _ => none

/-- The derived `IssuedCurrencyAmount` map visitor, walking the buffered
entries in order over the three field slots. -/
def decodeIssuedFields :
    List (String × Json) → Option String → Option String → Option String →
    Option IssuedCurrencyAmount
  | [], v, c, i => issuedFinish v c i
  | (k, j) :: rest, v, c, i =>
    (issuedStep v c i k j).bind fun s => decodeIssuedFields rest s.1 s.2.1 s.2.2

/-- The derived `IssuedCurrencyAmount` visitor on a buffered sequence:
fields positionally in declaration order, exactly three elements. -/
def decodeIssuedSeq : List Json → Option IssuedCurrencyAmount
  | [jv, jc, ji] =>
    match decodeString jv, decodeString jc, decodeString ji with
    | some v, some c, some i => some ⟨v, c, i⟩
    | _, _, _ => none
  | _ => none

/-- Model of the derived `Deserialize` for `IssuedCurrencyAmount`
(src lines 167-172) as driven through serde's content deserializer: map or
sequence input, anything else is a type error. -/
def decodeIssuedCurrencyAmount : Json → Option IssuedCurrencyAmount
  | .obj fs => decodeIssuedFields fs none none none
  | .arr xs => decodeIssuedSeq xs
  | _ => none

/-- Model of the derived untagged `Deserialize` for `CurrencyAmount`
(src lines 154-159): try `XRP(Drops)` first, then `IssuedCurrency`; if both
fail, the whole decode fails. -/
def decodeCurrencyAmount (j : Json) : Option CurrencyAmount :=
  match decodeDrops j with
  | some d => some (.XRP d)
  | none => (decodeIssuedCurrencyAmount j).map .IssuedCurrency

/-- Model of the derived `Serialize` for `IssuedCurrencyAmount`: a map of
the three fields in declaration order. -/
def serializeIssuedCurrencyAmount (a : IssuedCurrencyAmount) : Json :=
  .obj [("value", .str a.value), ("currency", .str a.currency),
        ("issuer", .str a.issuer)]

/-- Model of the derived untagged `Serialize` for `CurrencyAmount`: the
active variant's own serialization. -/
def serializeCurrencyAmount : CurrencyAmount → Json
  | .XRP d => serializeDrops d
  | .IssuedCurrency a => serializeIssuedCurrencyAmount a

/-! ## Ledger objects (src lines 188-247) -/

/-- Model of `pub struct AccountRoot` (src lines 202-236).  Rust `u32`/`u8`
fields are `Nat`s; the wf predicate below carries their ranges. -/
structure AccountRoot where
  account : String
  balance : CurrencyAmount
  flags : Nat
  owner_count : Nat
  previous_txn_id : String
  previous_txn_lgr_seq : Nat
  sequence : Nat
  account_txn_id : Option String
  domain : Option String
  email_hash : Option String
  message_key : Option String
  regular_key : Option String
  ticket_count : Option Nat
  tick_size : Option Nat
  transfer_rate : Option Nat
deriving DecidableEq

/-- Model of `pub struct Check` (src lines 238-247). -/
structure Check where
  account : String
  destination : String
  flags : Nat
deriving DecidableEq

/-- Model of `pub enum LedgerEntry` (src lines 188-194), declaration order
preserved. -/
inductive LedgerEntry where
  | Unknown
  | AccountRoot (a : AccountRoot)
  | Check (c : Check)
deriving DecidableEq

/-- Slot state of the derived `AccountRoot` map visitor: one slot per
field, `none` while the field has not been seen. -/
structure ARState where
  account : Option String := none
  balance : Option CurrencyAmount := none
  flags : Option Nat := none
  owner_count : Option Nat := none
  previous_txn_id : Option String := none
  previous_txn_lgr_seq : Option Nat := none
  sequence : Option Nat := none
  account_txn_id : Option (Option String) := none
  domain : Option (Option String) := none
  email_hash : Option (Option String) := none
  message_key : Option (Option String) := none
  regular_key : Option (Option String) := none
  ticket_count : Option (Option Nat) := none
  tick_size : Option (Option Nat) := none
  transfer_rate : Option (Option Nat) := none

/-- Model of the derived `AccountRoot` map visitor with
`#[serde(rename_all = "PascalCase")]` and the explicit
`#[serde(rename = "PreviousTxnID")]` (src lines 202-236).  Wire names are
the PascalCase forms (`account_txn_id` becomes `AccountTxnId` — only
`previous_txn_id` has an explicit rename).  Known duplicate fields error;
unknown fields are skipped; at the end the seven required fields must be
present, and an unseen `Option` field becomes `none` (serde's
missing-field handling for `Option`). -/
def arStep (st : ARState) (k : String) (j : Json) : Option ARState :=
  if k = "Account" then
    (setSlot st.account (decodeString j)).map fun x => { st with account := x }
  else if k = "Balance" then
    (setSlot st.balance (decodeCurrencyAmount j)).map fun x => { st with balance := x }
  else if k = "Flags" then
    (setSlot st.flags (decodeU32 j)).map fun x => { st with flags := x }
  else if k = "OwnerCount" then
    (setSlot st.owner_count (decodeU32 j)).map fun x => { st with owner_count := x }
  else if k = "PreviousTxnID" then
    (setSlot st.previous_txn_id (decodeString j)).map fun x => { st with previous_txn_id := x }
  else if k = "PreviousTxnLgrSeq" then
    (setSlot st.previous_txn_lgr_seq (decodeU32 j)).map fun x => { st with previous_txn_lgr_seq := x }
  else if k = "Sequence" then
    (setSlot st.sequence (decodeU32 j)).map fun x => { st with sequence := x }
  else if k = "AccountTxnId" then
    (setSlot st.account_txn_id (decodeOption decodeString j)).map fun x => { st with account_txn_id := x }
  else if k = "Domain" then
    (setSlot st.domain (decodeOption decodeString j)).map fun x => { st with domain := x }
  else if k = "EmailHash" then
    (setSlot st.email_hash (decodeOption decodeString j)).map fun x => { st with email_hash := x }
  else if k = "MessageKey" then
    (setSlot st.message_key (decodeOption decodeString j)).map fun x => { st with message_key := x }
  else if k = "RegularKey" then
    (setSlot st.regular_key (decodeOption decodeString j)).map fun x => { st with regular_key := x }
  else if k = "TicketCount" then
    (setSlot st.ticket_count (decodeOption decodeU32 j)).map fun x => { st with ticket_count := x }
  else if k = "TickSize" then
    (setSlot st.tick_size (decodeOption decodeU8 j)).map fun x => { st with tick_size := x }
  else if k = "TransferRate" then
    (setSlot st.transfer_rate (decodeOption decodeU32 j)).map fun x => { st with transfer_rate := x }
  else some st

/-- End of the `AccountRoot` map visitor: the seven required fields must
have been seen; an unseen `Option` field becomes `none` (serde's
missing-field handling for `Option`). -/
def arFinish (st : ARState) : Option AccountRoot :=
  match st.account, st.balance, st.flags, st.owner_count,
        st.previous_txn_id, st.previous_txn_lgr_seq, st.sequence with
  | some a, some b, some f, some oc, some pt, some pl, some sq =>
    some { account := a, balance := b, flags := f, owner_count := oc,
           previous_txn_id := pt, previous_txn_lgr_seq := pl, sequence := sq,
           account_txn_id := st.account_txn_id.getD none,
           domain := st.domain.getD none,
           email_hash := st.email_hash.getD none,
           message_key := st.message_key.getD none,
           regular_key := st.regular_key.getD none,
           ticket_count := st.ticket_count.getD none,
           tick_size := st.tick_size.getD none,
           transfer_rate := st.transfer_rate.getD none }
  | _, _, _, _, _, _, _ => none

def decodeAccountRootFields : List (String × Json) → ARState → Option AccountRoot
  | [], st => arFinish st
  | (k, j) :: rest, st =>
    (arStep st k j).bind fun st' => decodeAccountRootFields rest st'

/-- One entry of the derived `Check` map visitor (src lines 238-247,
`#[serde(rename_all = "PascalCase")]`). -/
def checkStep (a d : Option String) (f : Option Nat) (k : String) (j : Json) :
    Option (Option String × Option String × Option Nat) :=
  if k = "Account" then
    (setSlot a (decodeString j)).map fun x => (x, d, f)
  else if k = "Destination" then
    (setSlot d (decodeString j)).map fun x => (a, x, f)
  else if k = "Flags" then
    (setSlot f (decodeU32 j)).map fun x => (a, d, x)
  else some (a, d, f)

/-- End of the `Check` map visitor: all three fields required. -/
def checkFinish (a d : Option String) (f : Option Nat) : Option Check :=
  match a, d, f with
  | some a, some d, some f => some ⟨a, d, f⟩
  | _, _, _ => none

def decodeCheckFields :
    List (String × Json) → Option String → Option String → Option Nat →
    Option Check
  | [], a, d, f => checkFinish a d f
  | (k, j) :: rest, a, d, f =>
    (checkStep a d f k j).bind fun s => decodeCheckFields rest s.1 s.2.1 s.2.2

/-- Split the internally tagged discriminant out of a buffered map,
modelling serde's tagged-content map visitor for
`#[serde(tag = "LedgerEntryType")]` (src line 189): the tag entry is
removed, remaining entries keep their order, a duplicate tag is an error
and a missing tag is an error (`none`). -/
def splitTag : List (String × Json) → Option (Json × List (String × Json))
  | [] => none
  | (k, j) :: rest =>
    if k = "LedgerEntryType" then
      if rest.any (fun p => p.1 = "LedgerEntryType") then none else some (j, rest)
    else (splitTag rest).map (fun p => (p.1, (k, j) :: p.2))

/-- Model of the derived variant identifier visitor for `LedgerEntry`: a
string tag must be one of the three variant names (`visit_str`), a numeric
tag must be the variant index `0`, `1` or `2` (`visit_u64`); anything else
is an unknown-variant or invalid-type error.  The result is the variant
index in declaration order. -/
def decodeEntryVariant : Json → Option Nat
  | .str s =>
    if s = "Unknown" then some 0
    else if s = "AccountRoot" then some 1
    else if s = "Check" then some 2
    else none
  | .num n =>
    if n = 0 then some 0 else if n = 1 then some 1 else if n = 2 then some 2
    else none
  | _ => none

/-- Model of the derived internally tagged `Deserialize` for `LedgerEntry`
(src lines 188-194): split the tag out of the buffered map, decode it with
the variant identifier visitor, then decode the variant from the remaining
entries.  An unrecognized or missing tag is an error — there is no
`#[serde(other)]` fallback in the source.  The `Unknown` unit variant
ignores the remaining fields.  Only the map form of the internally tagged
representation is modelled (serde also accepts a sequence whose head is
the tag; no theorem below exercises that form). -/
def decodeLedgerEntry : Json → Option LedgerEntry
  | .obj fs =>
    (splitTag fs).bind fun p =>
      (decodeEntryVariant p.1).bind fun idx =>
        if idx = 0 then some .Unknown
        else if idx = 1 then (decodeAccountRootFields p.2 {}).map .AccountRoot
        else (decodeCheckFields p.2 none none none).map .Check
  | _ => none

/-- Model of the unsigned-integer `Serialize` impls: a JSON number. -/
def serializeUInt (n : Nat) : Json := .num (n : Int)

/-- Serialization of an `Option` field: serde writes `None` as JSON `null`
(there is no `skip_serializing_if` in the source). -/
def serializeOptionWith (enc : α → Json) : Option α → Json
  | none => .null
  | some a => enc a

/-- Field list of the derived `Serialize` for `AccountRoot`: declaration
order, PascalCase wire names, `PreviousTxnID` explicitly renamed. -/
def serializeAccountRootFields (a : AccountRoot) : List (String × Json) :=
  [("Account", .str a.account),
   ("Balance", serializeCurrencyAmount a.balance),
   ("Flags", serializeUInt a.flags),
   ("OwnerCount", serializeUInt a.owner_count),
   ("PreviousTxnID", .str a.previous_txn_id),
   ("PreviousTxnLgrSeq", serializeUInt a.previous_txn_lgr_seq),
   ("Sequence", serializeUInt a.sequence),
   ("AccountTxnId", serializeOptionWith .str a.account_txn_id),
   ("Domain", serializeOptionWith .str a.domain),
   ("EmailHash", serializeOptionWith .str a.email_hash),
   ("MessageKey", serializeOptionWith .str a.message_key),
   ("RegularKey", serializeOptionWith .str a.regular_key),
   ("TicketCount", serializeOptionWith serializeUInt a.ticket_count),
   ("TickSize", serializeOptionWith serializeUInt a.tick_size),
   ("TransferRate", serializeOptionWith serializeUInt a.transfer_rate)]

/-- Field list of the derived `Serialize` for `Check`. -/
def serializeCheckFields (c : Check) : List (String × Json) :=
  [("Account", .str c.account),
   ("Destination", .str c.destination),
   ("Flags", serializeUInt c.flags)]

/-- Model of the derived internally tagged `Serialize` for `LedgerEntry`:
the tag entry first, then the variant's own fields; the `Unknown` unit
variant is just the tag. -/
def serializeLedgerEntry : LedgerEntry → Json
  | .Unknown => .obj [("LedgerEntryType", .str "Unknown")]
  | .AccountRoot a => .obj (("LedgerEntryType", .str "AccountRoot") :: serializeAccountRootFields a)
  | .Check c => .obj (("LedgerEntryType", .str "Check") :: serializeCheckFields c)

/-! ## RequestId codec (src lines 23-29)

`RequestId` has the *derived default* (externally tagged) representation:
on the wire a variant is `{"Number": n}` or `{"String": s}` — serde_json
requires a single-entry map (or a bare variant-name string, possible only
for unit variants, of which `RequestId` has none). -/

/-- Model of the derived externally tagged `Deserialize` for `RequestId`. -/
def decodeRequestId : Json → Option RequestId
  | .obj [(k, j)] =>
    if k = "Number" then (decodeU64 j).map RequestId.Number
    else if k = "String" then (decodeString j).map RequestId.String
    else none
  | _ => none

/-- Model of the derived externally tagged `Serialize` for `RequestId`. -/
def serializeRequestId : RequestId → Json
  | .Number n => .obj [("Number", .num n)]
  | .String s => .obj [("String", .str s)]

/-! ## Response envelope (src lines 51-80) -/

/-- Model of `pub enum Result<T>` (src lines 70-75), `#[serde(untagged)]`:
either the typed payload or a raw JSON value. -/
inductive Result (T : Type) where
  | Ok (value : T)
  | Error (value : Json)

/-- Model of `pub struct Response<T>` (src lines 51-68). -/
structure Response (T : Type) where
  id : Option RequestId
  status : Option String
  type : Option String
  result : Result T
  warning : Option String
  warnings : Option (List Json)
  forwarded : Option Bool

/-- Model of the derived untagged `Deserialize` for `Result<T>`
(src lines 70-75): attempt `Ok(T)` first; on failure the `Error` branch
(`serde_json::Value`) accepts the buffered value unchanged, so the decode
of a present value never fails.  `decT` is the payload type's decoder. -/
def decodeResult (decT : Json → Option T) (j : Json) : Option (Result T) :=
  match decT j with
  | some t => some (.Ok t)
  | none => some (.Error j)

/-- Slot state of the derived `Response` map visitor. -/
structure RState (T : Type) where
  id : Option (Option RequestId) := none
  status : Option (Option String) := none
  type : Option (Option String) := none
  result : Option (Result T) := none
  warning : Option (Option String) := none
  warnings : Option (Option (List Json)) := none
  forwarded : Option (Option Bool) := none

/-- Model of the derived `Response<T>` map visitor (src lines 51-68): all
fields keep their lowercase names (`r#type` is the wire name `type`);
every `Option` field defaults to `none` when missing, while a missing
`result` is a missing-field error. -/
def responseStep (decT : Json → Option T) (st : RState T) (k : String) (j : Json) :
    Option (RState T) :=
  if k = "id" then
    (setSlot st.id (decodeOption decodeRequestId j)).map fun x => { st with id := x }
  else if k = "status" then
    (setSlot st.status (decodeOption decodeString j)).map fun x => { st with status := x }
  else if k = "type" then
    (setSlot st.type (decodeOption decodeString j)).map fun x => { st with type := x }
  else if k = "result" then
    (setSlot st.result (decodeResult decT j)).map fun x => { st with result := x }
  else if k = "warning" then
    (setSlot st.warning (decodeOption decodeString j)).map fun x => { st with warning := x }
  else if k = "warnings" then
    (setSlot st.warnings (decodeOption decodeValueList j)).map fun x => { st with warnings := x }
  else if k = "forwarded" then
    (setSlot st.forwarded (decodeOption decodeBool j)).map fun x => { st with forwarded := x }
  else some st

/-- End of the `Response` map visitor: `result` is required, every other
field defaults to `none` when missing. -/
def responseFinish (st : RState T) : Option (Response T) :=
  match st.result with
  | some r =>
    some { id := st.id.getD none, status := st.status.getD none,
           type := st.type.getD none, result := r,
           warning := st.warning.getD none,
           warnings := st.warnings.getD none,
           forwarded := st.forwarded.getD none }
  | none => none

def decodeResponseFields (decT : Json → Option T) :
    List (String × Json) → RState T → Option (Response T)
  | [], st => responseFinish st
  | (k, j) :: rest, st =>
    (responseStep decT st k j).bind fun st' => decodeResponseFields decT rest st'

/-- Model of the derived `Deserialize` for `Response<T>` on a JSON map
(the only form the envelope theorems exercise). -/
def decodeResponse (decT : Json → Option T) : Json → Option (Response T)
  | .obj fs => decodeResponseFields decT fs {}
  | _ => none

/-! ## Wellformedness: which model values denote Rust values

The model widens Rust's machine integers to `Nat`; these predicates carve
out exactly the values representable in the Rust types, and appear as
hypotheses of the round-trip theorems. -/

/-- A `RequestId` model value denotes a Rust value. -/
def RequestId.wf : RequestId → Bool
  | .Number n => n < 2 ^ 64
  | .String _ => true

/-- A `Drops` model value denotes a Rust `u64`. -/
def Drops.wf (d : Drops) : Bool := d.val < 2 ^ 64

/-- A `CurrencyAmount` model value denotes a Rust value. -/
def CurrencyAmount.wf : CurrencyAmount → Bool
  | .XRP d => d.wf
  | .IssuedCurrency _ => true

/-- An `AccountRoot` model value denotes a Rust value: `u32`/`u8` fields in
range, balance wellformed. -/
def AccountRoot.wf (a : AccountRoot) : Bool :=
  a.balance.wf && a.flags < 2 ^ 32 && a.owner_count < 2 ^ 32 &&
  a.previous_txn_lgr_seq < 2 ^ 32 && a.sequence < 2 ^ 32 &&
  a.ticket_count.all (· < 2 ^ 32) && a.tick_size.all (· < 2 ^ 8) &&
  a.transfer_rate.all (· < 2 ^ 32)

/-- A `Check` model value denotes a Rust value. -/
def Check.wf (c : Check) : Bool := c.flags < 2 ^ 32

/-- A `LedgerEntry` model value denotes a Rust value. -/
def LedgerEntry.wf : LedgerEntry → Bool
  | .Unknown => true
  | .AccountRoot a => a.wf
  | .Check c => c.wf

/-! ## Derived notions used by the theorems -/

/-- First value stored under a key, if any. -/
def lookupField : List (String × Json) → String → Option Json
  | [], _ => none
  | (k', j) :: rest, k => if k' = k then some j else lookupField rest k

/-- Slot invariant for one field of the issued-currency visitor: either the
slot is already filled with the expected string and the key does not occur
again, or the slot is empty and the first occurrence of the key holds the
expected string. -/
def SlotInv (fs : List (String × Json)) (key : String) (slot : Option String)
    (target : String) : Prop :=
  (slot = some target ∧ lookupField fs key = none) ∨
  (slot = none ∧ lookupField fs key = some (.str target))

/-- The wire field names of `AccountRoot` plus the discriminant. -/
def arKnownKeys : List String :=
  ["Account", "Balance", "Flags", "OwnerCount", "PreviousTxnID",
   "PreviousTxnLgrSeq", "Sequence", "AccountTxnId", "Domain", "EmailHash",
   "MessageKey", "RegularKey", "TicketCount", "TickSize", "TransferRate"]

/-! ## Shared fixtures -/

/-- The minimal `AccountRoot` wire object of the spec's test catalogue:
all required fields present, all optional fields absent. -/
def accountRootFixture : List (String × Json) :=
  [("LedgerEntryType", .str "AccountRoot"), ("Account", .str "rX"),
   ("Balance", .str "500"), ("Flags", .num 0), ("OwnerCount", .num 0),
   ("PreviousTxnID", .str "ABCD"), ("PreviousTxnLgrSeq", .num 1),
   ("Sequence", .num 1)]

/-- The in-process value the fixture decodes to. -/
def accountRootFixtureValue : AccountRoot :=
  { account := "rX", balance := .XRP ⟨500⟩, flags := 0, owner_count := 0,
    previous_txn_id := "ABCD", previous_txn_lgr_seq := 1, sequence := 1,
    account_txn_id := none, domain := none, email_hash := none,
    message_key := none, regular_key := none, ticket_count := none,
    tick_size := none, transfer_rate := none }

/-! ## Visitor slot lemmas -/

theorem setSlot_none_some (x : α) : setSlot none (some x) = some (some x) := rfl

theorem setSlot_none_none : setSlot (none : Option α) none = none := rfl

theorem setSlot_some (a : α) (d : Option α) : setSlot (some a) d = none := by
  cases d <;> rfl

/-! ## Decimal printing lemmas -/

theorem toDecimalAux_eq (n : Nat) (acc : List Char) :
    toDecimalAux n acc =
      if n < 10 then Char.ofNat (48 + n % 10) :: acc
      else toDecimalAux (n / 10) (Char.ofNat (48 + n % 10) :: acc) := by
  rw [toDecimalAux]
  by_cases h : n < 10 <;> simp [h]

theorem toDecimalAux_append (n : Nat) (acc : List Char) :
    toDecimalAux n acc = toDecimalAux n [] ++ acc := by
  induction n using Nat.strong_induction_on generalizing acc with
  | _ n ih =>
    rw [toDecimalAux_eq n acc, toDecimalAux_eq n []]
    by_cases h : n < 10
    · simp [h]
    · simp only [h, if_false]
      rw [ih (n / 10) (Nat.div_lt_self (by omega) (by omega)) (Char.ofNat (48 + n % 10) :: acc),
        ih (n / 10) (Nat.div_lt_self (by omega) (by omega)) [Char.ofNat (48 + n % 10)]]
      simp

theorem toDecimalAux_ne_nil (n : Nat) (acc : List Char) :
    toDecimalAux n acc ≠ [] := by
  rw [toDecimalAux]
  by_cases h : n < 10
  · simp [h]
  · simp only [h, dite_false]
    exact toDecimalAux_ne_nil (n / 10) _
termination_by n
decreasing_by exact Nat.div_lt_self (by omega) (by omega)

theorem char_digit_toNat {m : Nat} (h : m < 10) :
    (Char.ofNat (48 + m)).toNat = 48 + m := by
  interval_cases m <;> decide

theorem char_digit_isDigit {m : Nat} (h : m < 10) :
    (Char.ofNat (48 + m)).isDigit = true := by
  interval_cases m <;> decide

theorem digitsToNat_append_digit (xs : List Char) (c : Char) :
    digitsToNat (xs ++ [c]) = 10 * digitsToNat xs + (c.toNat - 48) := by
  simp [digitsToNat, List.foldl_append, Nat.mul_comm]

theorem digitsToNat_toDecimalAux (n : Nat) :
    digitsToNat (toDecimalAux n []) = n := by
  induction n using Nat.strong_induction_on with
  | _ n ih =>
    rw [toDecimalAux]
    by_cases h : n < 10
    · simp only [h, dite_true]
      simp [digitsToNat, char_digit_toNat (Nat.mod_lt n (by omega))]
      omega
    · simp only [h, dite_false]
      rw [toDecimalAux_append, digitsToNat_append_digit,
        ih (n / 10) (Nat.div_lt_self (by omega) (by omega)),
        char_digit_toNat (Nat.mod_lt n (by omega))]
      omega

theorem toDecimalAux_all_digits (n : Nat) :
    ∀ c ∈ toDecimalAux n [], c.isDigit = true := by
  induction n using Nat.strong_induction_on with
  | _ n ih =>
    rw [toDecimalAux]
    by_cases h : n < 10
    · simp only [h, dite_true]
      intro c hc
      simp at hc
      subst hc
      exact char_digit_isDigit (Nat.mod_lt n (by omega))
    · simp only [h, dite_false]
      rw [toDecimalAux_append]
      intro c hc
      rcases List.mem_append.mp hc with h1 | h2
      · exact ih (n / 10) (Nat.div_lt_self (by omega) (by omega)) c h1
      · simp at h2
        subst h2
        exact char_digit_isDigit (Nat.mod_lt n (by omega))

theorem toDecimalAux_head_ne_zero (n : Nat) (hn : n ≠ 0) :
    (toDecimalAux n []).head? ≠ some '0' := by
  induction n using Nat.strong_induction_on with
  | _ n ih =>
    rw [toDecimalAux]
    by_cases h : n < 10
    · simp only [h, dite_true, List.head?]
      have h10 : n % 10 = n := Nat.mod_eq_of_lt h
      rw [h10]
      interval_cases n <;> simp_all
    · simp only [h, dite_false]
      rw [toDecimalAux_append]
      rcases hne : toDecimalAux (n / 10) [] with _ | ⟨c, cs⟩
      · exact absurd hne (toDecimalAux_ne_nil _ _)
      · have := ih (n / 10) (Nat.div_lt_self (by omega) (by omega)) (by omega)
        rw [hne] at this
        simpa using this

theorem parseU64_toDecimal {n : Nat} (h : n < 2 ^ 64) :
    parseU64 (toDecimal n) = some n := by
  have hdata : (toDecimal n).data = toDecimalAux n [] := rfl
  have hne := toDecimalAux_ne_nil n []
  rcases hx : toDecimalAux n [] with _ | ⟨c, cs⟩
  · exact absurd hx hne
  · have hdig : c.isDigit = true := by
      have := toDecimalAux_all_digits n
      rw [hx] at this
      exact this c (by simp)
    have hcplus : c ≠ '+' := by
      intro hc
      subst hc
      simp [Char.isDigit] at hdig
    have hstrip : stripPlus (toDecimal n).data = toDecimalAux n [] := by
      rw [hdata, hx, stripPlus]
      simp [hcplus, hx]
    rw [parseU64, hstrip, hx]
    have hall : (c :: cs).all Char.isDigit = true := by
      rw [List.all_eq_true]
      intro x hx2
      have := toDecimalAux_all_digits n
      rw [hx] at this
      exact this x hx2
    have hval : digitsToNat (c :: cs) = n := by
      have := digitsToNat_toDecimalAux n
      rw [hx] at this
      exact this
    simp [hall, hval]
    omega

theorem decodeDrops_serializeDrops {d : Drops} (h : d.wf = true) :
    decodeDrops (serializeDrops d) = some d := by
  have hb : d.val < 2 ^ 64 := by
    simpa [Drops.wf] using h
  simp [decodeDrops, serializeDrops, parseU64_toDecimal hb]

/-! ## Characterization of accepted Drops strings -/

theorem parseU64_sound {s : String} {n : Nat} (h : parseU64 s = some n) :
    stripPlus s.data ≠ [] ∧ (stripPlus s.data).all Char.isDigit = true ∧
      digitsToNat (stripPlus s.data) = n ∧ n < 2 ^ 64 := by
  simp only [parseU64] at h
  by_cases h1 : stripPlus s.data = []
  · rw [if_pos h1] at h
    exact absurd h (by simp)
  · rw [if_neg h1] at h
    by_cases h2 : (stripPlus s.data).all Char.isDigit = true
    · rw [if_pos h2] at h
      by_cases h3 : digitsToNat (stripPlus s.data) < 2 ^ 64
      · rw [if_pos h3] at h
        have hval := Option.some.inj h
        exact ⟨h1, h2, hval, hval ▸ h3⟩
      · rw [if_neg h3] at h
        exact absurd h (by simp)
    · rw [if_neg h2] at h
      exact absurd h (by simp)

theorem parseU64_digits {s : String} (h1 : s.data ≠ [])
    (h2 : s.data.all Char.isDigit = true)
    (h3 : digitsToNat s.data < 2 ^ 64) :
    parseU64 s = some (digitsToNat s.data) := by
  have hstrip : stripPlus s.data = s.data := by
    rcases hx : s.data with _ | ⟨c, cs⟩
    · exact absurd hx h1
    · have hdig : c.isDigit = true := by
        rw [hx, List.all_eq_true] at h2
        exact h2 c (by simp)
      have : c ≠ '+' := by
        intro hc
        subst hc
        simp [Char.isDigit] at hdig
      simp [stripPlus, this]
  rw [parseU64, hstrip, if_neg h1, if_pos h2, if_pos h3]

/-! ## Lookup view of buffered JSON maps -/

theorem lookupField_cons (k' : String) (j : Json) (rest : List (String × Json))
    (k : String) :
    lookupField ((k', j) :: rest) k = if k' = k then some j else lookupField rest k := rfl

/-! ## IssuedCurrencyAmount visitor lemmas -/

theorem decodeIssuedFields_unknown (fs : List (String × Json))
    (h : ∀ p ∈ fs, p.1 ∉ (["value", "currency", "issuer"] : List String))
    (v c i : Option String) :
    decodeIssuedFields fs v c i = decodeIssuedFields [] v c i := by
  induction fs with
  | nil => rfl
  | cons p rest ih =>
    obtain ⟨k, j⟩ := p
    have hk := h (k, j) (by simp)
    simp only [List.mem_cons, List.not_mem_nil, or_false, not_or] at hk
    conv_lhs => rw [decodeIssuedFields]
    rw [show issuedStep v c i k j = some (v, c, i) by
      rw [issuedStep, if_neg hk.1, if_neg hk.2.1, if_neg hk.2.2]]
    rw [Option.some_bind]
    exact ih (fun q hq => h q (by simp [hq]))

theorem lookupField_eq_none (fs : List (String × Json)) (k : String)
    (h : k ∉ fs.map Prod.fst) : lookupField fs k = none := by
  induction fs with
  | nil => rfl
  | cons p rest ih =>
    simp only [List.map_cons, List.mem_cons, not_or] at h
    rw [lookupField_cons, if_neg (fun he => h.1 he.symm)]
    exact ih h.2

theorem SlotInv_cons_ne {k' : String} {j : Json} {rest : List (String × Json)}
    {key : String} (hne : ¬ k' = key) {slot : Option String} {target : String}
    (h : SlotInv ((k', j) :: rest) key slot target) :
    SlotInv rest key slot target := by
  simpa [SlotInv, lookupField_cons, hne] using h

theorem decodeIssuedFields_lookup (fs : List (String × Json))
    (hnd : (fs.map Prod.fst).Nodup)
    (ov oc oi : Option String) (v c i : String)
    (hv : SlotInv fs "value" ov v) (hc : SlotInv fs "currency" oc c)
    (hi : SlotInv fs "issuer" oi i) :
    decodeIssuedFields fs ov oc oi = some ⟨v, c, i⟩ := by
  induction fs generalizing ov oc oi with
  | nil =>
    rcases hv with ⟨hv1, _⟩ | ⟨_, hv2⟩
    · rcases hc with ⟨hc1, _⟩ | ⟨_, hc2⟩
      · rcases hi with ⟨hi1, _⟩ | ⟨_, hi2⟩
        · subst hv1; subst hc1; subst hi1; rfl
        · exact absurd hi2 (by simp [lookupField])
      · exact absurd hc2 (by simp [lookupField])
    · exact absurd hv2 (by simp [lookupField])
  | cons p rest ih =>
    obtain ⟨k, j⟩ := p
    simp only [List.map_cons, List.nodup_cons] at hnd
    obtain ⟨hknotin, hndrest⟩ := hnd
    by_cases hkv : k = "value"
    · subst hkv
      rcases hv with ⟨_, hv2⟩ | ⟨hov, hv2⟩
      · rw [lookupField_cons, if_pos rfl] at hv2
        exact absurd hv2 (by simp)
      · rw [lookupField_cons, if_pos rfl] at hv2
        obtain rfl : j = .str v := Option.some.inj hv2
        subst hov
        rw [decodeIssuedFields]
        rw [show issuedStep none oc oi "value" (.str v) = some (some v, oc, oi) by
          rw [issuedStep, if_pos rfl]
          rfl]
        rw [Option.some_bind]
        exact ih hndrest (some v) oc oi
          (Or.inl ⟨rfl, lookupField_eq_none rest "value" hknotin⟩)
          (SlotInv_cons_ne (by decide) hc)
          (SlotInv_cons_ne (by decide) hi)
    · by_cases hkc : k = "currency"
      · subst hkc
        rcases hc with ⟨_, hc2⟩ | ⟨hoc, hc2⟩
        · rw [lookupField_cons, if_pos rfl] at hc2
          exact absurd hc2 (by simp)
        · rw [lookupField_cons, if_pos rfl] at hc2
          obtain rfl : j = .str c := Option.some.inj hc2
          subst hoc
          rw [decodeIssuedFields]
          rw [show issuedStep ov none oi "currency" (.str c) = some (ov, some c, oi) by
            rw [issuedStep, if_neg (by decide : ¬ ("currency" : String) = "value"), if_pos rfl]
            rfl]
          rw [Option.some_bind]
          exact ih hndrest ov (some c) oi
            (SlotInv_cons_ne (by decide) hv)
            (Or.inl ⟨rfl, lookupField_eq_none rest "currency" hknotin⟩)
            (SlotInv_cons_ne (by decide) hi)
      · by_cases hki : k = "issuer"
        · subst hki
          rcases hi with ⟨_, hi2⟩ | ⟨hoi, hi2⟩
          · rw [lookupField_cons, if_pos rfl] at hi2
            exact absurd hi2 (by simp)
          · rw [lookupField_cons, if_pos rfl] at hi2
            obtain rfl : j = .str i := Option.some.inj hi2
            subst hoi
            rw [decodeIssuedFields]
            rw [show issuedStep ov oc none "issuer" (.str i) = some (ov, oc, some i) by
              rw [issuedStep, if_neg (by decide : ¬ ("issuer" : String) = "value"),
                if_neg (by decide : ¬ ("issuer" : String) = "currency"), if_pos rfl]
              rfl]
            rw [Option.some_bind]
            exact ih hndrest ov oc (some i)
              (SlotInv_cons_ne (by decide) hv)
              (SlotInv_cons_ne (by decide) hc)
              (Or.inl ⟨rfl, lookupField_eq_none rest "issuer" hknotin⟩)
        · rw [decodeIssuedFields]
          rw [show issuedStep ov oc oi k j = some (ov, oc, oi) by
            rw [issuedStep, if_neg hkv, if_neg hkc, if_neg hki]]
          rw [Option.some_bind]
          exact ih hndrest ov oc oi
            (SlotInv_cons_ne hkv hv)
            (SlotInv_cons_ne hkc hc)
            (SlotInv_cons_ne hki hi)

theorem decodeIssuedFields_missing_value (fs : List (String × Json))
    (oc oi : Option String) (h : lookupField fs "value" = none) :
    decodeIssuedFields fs none oc oi = none := by
  induction fs generalizing oc oi with
  | nil => cases oc <;> cases oi <;> rfl
  | cons p rest ih =>
    obtain ⟨k, j⟩ := p
    by_cases hk : k = "value"
    · rw [lookupField_cons, if_pos hk] at h
      exact absurd h (by simp)
    · rw [lookupField_cons, if_neg hk] at h
      rw [decodeIssuedFields, issuedStep, if_neg hk]
      by_cases hkc : k = "currency"
      · rw [if_pos hkc]
        rcases hsc : setSlot oc (decodeString j) with _ | s
        · simp [hsc]
        · simp only [hsc, Option.map_some', Option.some_bind]
          exact ih s oi h
      · rw [if_neg hkc]
        by_cases hki : k = "issuer"
        · rw [if_pos hki]
          rcases hsc : setSlot oi (decodeString j) with _ | s
          · simp [hsc]
          · simp only [hsc, Option.map_some', Option.some_bind]
            exact ih oc s h
        · rw [if_neg hki, Option.some_bind]
          exact ih oc oi h

theorem decodeIssuedFields_missing_currency (fs : List (String × Json))
    (ov oi : Option String) (h : lookupField fs "currency" = none) :
    decodeIssuedFields fs ov none oi = none := by
  induction fs generalizing ov oi with
  | nil => cases ov <;> cases oi <;> rfl
  | cons p rest ih =>
    obtain ⟨k, j⟩ := p
    by_cases hk : k = "currency"
    · rw [lookupField_cons, if_pos hk] at h
      exact absurd h (by simp)
    · rw [lookupField_cons, if_neg hk] at h
      rw [decodeIssuedFields, issuedStep]
      by_cases hkv : k = "value"
      · rw [if_pos hkv]
        rcases hsc : setSlot ov (decodeString j) with _ | s
        · simp [hsc]
        · simp only [hsc, Option.map_some', Option.some_bind]
          exact ih s oi h
      · rw [if_neg hkv, if_neg hk]
        by_cases hki : k = "issuer"
        · rw [if_pos hki]
          rcases hsc : setSlot oi (decodeString j) with _ | s
          · simp [hsc]
          · simp only [hsc, Option.map_some', Option.some_bind]
            exact ih ov s h
        · rw [if_neg hki, Option.some_bind]
          exact ih ov oi h

theorem decodeIssuedFields_missing_issuer (fs : List (String × Json))
    (ov oc : Option String) (h : lookupField fs "issuer" = none) :
    decodeIssuedFields fs ov oc none = none := by
  induction fs generalizing ov oc with
  | nil => cases ov <;> cases oc <;> rfl
  | cons p rest ih =>
    obtain ⟨k, j⟩ := p
    by_cases hk : k = "issuer"
    · rw [lookupField_cons, if_pos hk] at h
      exact absurd h (by simp)
    · rw [lookupField_cons, if_neg hk] at h
      rw [decodeIssuedFields, issuedStep]
      by_cases hkv : k = "value"
      · rw [if_pos hkv]
        rcases hsc : setSlot ov (decodeString j) with _ | s
        · simp [hsc]
        · simp only [hsc, Option.map_some', Option.some_bind]
          exact ih s oc h
      · rw [if_neg hkv]
        by_cases hkc : k = "currency"
        · rw [if_pos hkc]
          rcases hsc : setSlot oc (decodeString j) with _ | s
          · simp [hsc]
          · simp only [hsc, Option.map_some', Option.some_bind]
            exact ih ov s h
        · rw [if_neg hkc, if_neg hk, Option.some_bind]
          exact ih ov oc h

/-! ## CurrencyAmount dispatch and round trip -/

theorem decodeCurrencyAmount_str_parse {s : String} {n : Nat}
    (h : parseU64 s = some n) :
    decodeCurrencyAmount (.str s) = some (.XRP ⟨n⟩) := by
  simp [decodeCurrencyAmount, decodeDrops, h]

theorem decodeCurrencyAmount_str_fail {s : String} (h : parseU64 s = none) :
    decodeCurrencyAmount (.str s) = none := by
  simp [decodeCurrencyAmount, decodeDrops, h, decodeIssuedCurrencyAmount]

theorem decodeCurrencyAmount_obj (fs : List (String × Json)) :
    decodeCurrencyAmount (.obj fs) =
      (decodeIssuedFields fs none none none).map .IssuedCurrency := by
  simp [decodeCurrencyAmount, decodeDrops, decodeIssuedCurrencyAmount]

theorem decodeCurrencyAmount_serialize (ca : CurrencyAmount)
    (h : ca.wf = true) :
    decodeCurrencyAmount (serializeCurrencyAmount ca) = some ca := by
  cases ca with
  | XRP d =>
    have hd : d.wf = true := by simpa [CurrencyAmount.wf] using h
    simp [serializeCurrencyAmount, decodeCurrencyAmount,
      decodeDrops_serializeDrops hd]
  | IssuedCurrency a =>
    simp [serializeCurrencyAmount, serializeIssuedCurrencyAmount,
      decodeCurrencyAmount, decodeDrops, decodeIssuedCurrencyAmount,
      decodeIssuedFields, issuedStep, setSlot, decodeString, issuedFinish]

/-! ## Primitive round trips for struct fields -/

theorem decodeUInt_num {b n : Nat} (h : n < b) :
    decodeUInt b (serializeUInt n) = some n := by
  have h1 : (0 : Int) ≤ (n : Int) := Int.natCast_nonneg n
  have h2 : (n : Int) < (b : Int) := by exact_mod_cast h
  simp [decodeUInt, serializeUInt, h1, h2]

theorem decodeUInt_num' {b n : Nat} (h : n < b) :
    decodeUInt b (.num (n : Int)) = some n := decodeUInt_num h

theorem decodeOption_string_some (o : Option String) :
    decodeOption decodeString (serializeOptionWith .str o) = some o := by
  cases o <;> rfl

theorem decodeOption_uint_some {b : Nat} (o : Option Nat)
    (h : o.all (· < b) = true) :
    decodeOption (decodeUInt b) (serializeOptionWith serializeUInt o) = some o := by
  cases o with
  | none => rfl
  | some t =>
    have ht : t < b := by simpa using h
    simp [serializeOptionWith, serializeUInt, decodeOption, decodeUInt_num' ht]

/-! ## AccountRoot and Check visitor lemmas -/

theorem arStep_unknown (st : ARState) (k : String) (j : Json)
    (h : k ∉ arKnownKeys) : arStep st k j = some st := by
  simp only [arKnownKeys, List.mem_cons, List.not_mem_nil, or_false, not_or] at h
  obtain ⟨h1, h2, h3, h4, h5, h6, h7, h8, h9, h10, h11, h12, h13, h14, h15⟩ := h
  rw [arStep, if_neg h1, if_neg h2, if_neg h3, if_neg h4, if_neg h5, if_neg h6,
    if_neg h7, if_neg h8, if_neg h9, if_neg h10, if_neg h11, if_neg h12,
    if_neg h13, if_neg h14, if_neg h15]

theorem decodeAccountRootFields_unknown (fs : List (String × Json)) (st : ARState)
    (h : ∀ p ∈ fs, p.1 ∉ arKnownKeys) :
    decodeAccountRootFields fs st = arFinish st := by
  induction fs generalizing st with
  | nil => rfl
  | cons p rest ih =>
    obtain ⟨k, j⟩ := p
    rw [decodeAccountRootFields, arStep_unknown st k j (h (k, j) (by simp)),
      Option.some_bind]
    exact ih st (fun q hq => h q (by simp [hq]))

theorem decodeAccountRootFields_cons (k : String) (j : Json)
    (rest : List (String × Json)) (st st' : ARState)
    (hstep : arStep st k j = some st') :
    decodeAccountRootFields ((k, j) :: rest) st = decodeAccountRootFields rest st' := by
  rw [decodeAccountRootFields, hstep, Option.some_bind]

theorem arStep_account (st : ARState) (v : Json) (x : String)
    (hslot : st.account = none) (hv : decodeString v = some x) :
    arStep st "Account" v = some { st with account := some x } := by
  rw [arStep, if_pos rfl, hslot, hv, setSlot_none_some, Option.map_some']

theorem arStep_balance (st : ARState) (v : Json) (x : CurrencyAmount)
    (hslot : st.balance = none) (hv : decodeCurrencyAmount v = some x) :
    arStep st "Balance" v = some { st with balance := some x } := by
  rw [arStep, if_neg (by decide), if_pos rfl, hslot, hv, setSlot_none_some,
    Option.map_some']

theorem arStep_flags (st : ARState) (v : Json) (x : Nat)
    (hslot : st.flags = none) (hv : decodeU32 v = some x) :
    arStep st "Flags" v = some { st with flags := some x } := by
  rw [arStep, if_neg (by decide), if_neg (by decide), if_pos rfl, hslot, hv,
    setSlot_none_some, Option.map_some']

theorem arStep_owner_count (st : ARState) (v : Json) (x : Nat)
    (hslot : st.owner_count = none) (hv : decodeU32 v = some x) :
    arStep st "OwnerCount" v = some { st with owner_count := some x } := by
  rw [arStep, if_neg (by decide), if_neg (by decide), if_neg (by decide),
    if_pos rfl, hslot, hv, setSlot_none_some, Option.map_some']

theorem arStep_previous_txn_id (st : ARState) (v : Json) (x : String)
    (hslot : st.previous_txn_id = none) (hv : decodeString v = some x) :
    arStep st "PreviousTxnID" v = some { st with previous_txn_id := some x } := by
  rw [arStep, if_neg (by decide), if_neg (by decide), if_neg (by decide),
    if_neg (by decide), if_pos rfl, hslot, hv, setSlot_none_some, Option.map_some']

theorem arStep_previous_txn_lgr_seq (st : ARState) (v : Json) (x : Nat)
    (hslot : st.previous_txn_lgr_seq = none) (hv : decodeU32 v = some x) :
    arStep st "PreviousTxnLgrSeq" v =
      some { st with previous_txn_lgr_seq := some x } := by
  rw [arStep, if_neg (by decide), if_neg (by decide), if_neg (by decide),
    if_neg (by decide), if_neg (by decide), if_pos rfl, hslot, hv,
    setSlot_none_some, Option.map_some']

theorem arStep_sequence (st : ARState) (v : Json) (x : Nat)
    (hslot : st.sequence = none) (hv : decodeU32 v = some x) :
    arStep st "Sequence" v = some { st with sequence := some x } := by
  rw [arStep, if_neg (by decide), if_neg (by decide), if_neg (by decide),
    if_neg (by decide), if_neg (by decide), if_neg (by decide), if_pos rfl,
    hslot, hv, setSlot_none_some, Option.map_some']

theorem arStep_account_txn_id (st : ARState) (v : Json) (x : Option String)
    (hslot : st.account_txn_id = none)
    (hv : decodeOption decodeString v = some x) :
    arStep st "AccountTxnId" v = some { st with account_txn_id := some x } := by
  rw [arStep, if_neg (by decide), if_neg (by decide), if_neg (by decide),
    if_neg (by decide), if_neg (by decide), if_neg (by decide),
    if_neg (by decide), if_pos rfl, hslot, hv, setSlot_none_some, Option.map_some']

theorem arStep_domain (st : ARState) (v : Json) (x : Option String)
    (hslot : st.domain = none) (hv : decodeOption decodeString v = some x) :
    arStep st "Domain" v = some { st with domain := some x } := by
  rw [arStep, if_neg (by decide), if_neg (by decide), if_neg (by decide),
    if_neg (by decide), if_neg (by decide), if_neg (by decide),
    if_neg (by decide), if_neg (by decide), if_pos rfl, hslot, hv,
    setSlot_none_some, Option.map_some']

theorem arStep_email_hash (st : ARState) (v : Json) (x : Option String)
    (hslot : st.email_hash = none) (hv : decodeOption decodeString v = some x) :
    arStep st "EmailHash" v = some { st with email_hash := some x } := by
  rw [arStep, if_neg (by decide), if_neg (by decide), if_neg (by decide),
    if_neg (by decide), if_neg (by decide), if_neg (by decide),
    if_neg (by decide), if_neg (by decide), if_neg (by decide), if_pos rfl,
    hslot, hv, setSlot_none_some, Option.map_some']

theorem arStep_message_key (st : ARState) (v : Json) (x : Option String)
    (hslot : st.message_key = none) (hv : decodeOption decodeString v = some x) :
    arStep st "MessageKey" v = some { st with message_key := some x } := by
  rw [arStep, if_neg (by decide), if_neg (by decide), if_neg (by decide),
    if_neg (by decide), if_neg (by decide), if_neg (by decide),
    if_neg (by decide), if_neg (by decide), if_neg (by decide),
    if_neg (by decide), if_pos rfl, hslot, hv, setSlot_none_some, Option.map_some']

theorem arStep_regular_key (st : ARState) (v : Json) (x : Option String)
    (hslot : st.regular_key = none) (hv : decodeOption decodeString v = some x) :
    arStep st "RegularKey" v = some { st with regular_key := some x } := by
  rw [arStep, if_neg (by decide), if_neg (by decide), if_neg (by decide),
    if_neg (by decide), if_neg (by decide), if_neg (by decide),
    if_neg (by decide), if_neg (by decide), if_neg (by decide),
    if_neg (by decide), if_neg (by decide), if_pos rfl, hslot, hv,
    setSlot_none_some, Option.map_some']

theorem arStep_ticket_count (st : ARState) (v : Json) (x : Option Nat)
    (hslot : st.ticket_count = none)
    (hv : decodeOption decodeU32 v = some x) :
    arStep st "TicketCount" v = some { st with ticket_count := some x } := by
  rw [arStep, if_neg (by decide), if_neg (by decide), if_neg (by decide),
    if_neg (by decide), if_neg (by decide), if_neg (by decide),
    if_neg (by decide), if_neg (by decide), if_neg (by decide),
    if_neg (by decide), if_neg (by decide), if_neg (by decide), if_pos rfl,
    hslot, hv, setSlot_none_some, Option.map_some']

theorem arStep_tick_size (st : ARState) (v : Json) (x : Option Nat)
    (hslot : st.tick_size = none) (hv : decodeOption decodeU8 v = some x) :
    arStep st "TickSize" v = some { st with tick_size := some x } := by
  rw [arStep, if_neg (by decide), if_neg (by decide), if_neg (by decide),
    if_neg (by decide), if_neg (by decide), if_neg (by decide),
    if_neg (by decide), if_neg (by decide), if_neg (by decide),
    if_neg (by decide), if_neg (by decide), if_neg (by decide),
    if_neg (by decide), if_pos rfl, hslot, hv, setSlot_none_some, Option.map_some']

theorem arStep_transfer_rate (st : ARState) (v : Json) (x : Option Nat)
    (hslot : st.transfer_rate = none)
    (hv : decodeOption decodeU32 v = some x) :
    arStep st "TransferRate" v = some { st with transfer_rate := some x } := by
  rw [arStep, if_neg (by decide), if_neg (by decide), if_neg (by decide),
    if_neg (by decide), if_neg (by decide), if_neg (by decide),
    if_neg (by decide), if_neg (by decide), if_neg (by decide),
    if_neg (by decide), if_neg (by decide), if_neg (by decide),
    if_neg (by decide), if_neg (by decide), if_pos rfl, hslot, hv,
    setSlot_none_some, Option.map_some']

theorem decodeAccountRootFields_serialize (a : AccountRoot) (h : a.wf = true) :
    decodeAccountRootFields (serializeAccountRootFields a) {} = some a := by
  simp only [AccountRoot.wf, Bool.and_eq_true, decide_eq_true_eq] at h
  obtain ⟨⟨⟨⟨⟨⟨⟨hbal, hfl⟩, hoc⟩, hpl⟩, hsq⟩, htc⟩, hts⟩, htr⟩ := h
  rw [serializeAccountRootFields]
  refine (decodeAccountRootFields_cons _ _ _ _ _
    (arStep_account _ _ _ rfl
      (show decodeString (.str a.account) = some a.account from rfl))).trans ?_
  refine (decodeAccountRootFields_cons _ _ _ _ _
    (arStep_balance _ _ _ rfl (decodeCurrencyAmount_serialize a.balance hbal))).trans ?_
  refine (decodeAccountRootFields_cons _ _ _ _ _
    (arStep_flags _ _ _ rfl (decodeUInt_num hfl))).trans ?_
  refine (decodeAccountRootFields_cons _ _ _ _ _
    (arStep_owner_count _ _ _ rfl (decodeUInt_num hoc))).trans ?_
  refine (decodeAccountRootFields_cons _ _ _ _ _
    (arStep_previous_txn_id _ _ _ rfl
      (show decodeString (.str a.previous_txn_id) = some a.previous_txn_id from rfl))).trans ?_
  refine (decodeAccountRootFields_cons _ _ _ _ _
    (arStep_previous_txn_lgr_seq _ _ _ rfl (decodeUInt_num hpl))).trans ?_
  refine (decodeAccountRootFields_cons _ _ _ _ _
    (arStep_sequence _ _ _ rfl (decodeUInt_num hsq))).trans ?_
  refine (decodeAccountRootFields_cons _ _ _ _ _
    (arStep_account_txn_id _ _ _ rfl (decodeOption_string_some _))).trans ?_
  refine (decodeAccountRootFields_cons _ _ _ _ _
    (arStep_domain _ _ _ rfl (decodeOption_string_some _))).trans ?_
  refine (decodeAccountRootFields_cons _ _ _ _ _
    (arStep_email_hash _ _ _ rfl (decodeOption_string_some _))).trans ?_
  refine (decodeAccountRootFields_cons _ _ _ _ _
    (arStep_message_key _ _ _ rfl (decodeOption_string_some _))).trans ?_
  refine (decodeAccountRootFields_cons _ _ _ _ _
    (arStep_regular_key _ _ _ rfl (decodeOption_string_some _))).trans ?_
  refine (decodeAccountRootFields_cons _ _ _ _ _
    (arStep_ticket_count _ _ _ rfl (decodeOption_uint_some _ htc))).trans ?_
  refine (decodeAccountRootFields_cons _ _ _ _ _
    (arStep_tick_size _ _ _ rfl (decodeOption_uint_some _ hts))).trans ?_
  refine (decodeAccountRootFields_cons _ _ _ _ _
    (arStep_transfer_rate _ _ _ rfl (decodeOption_uint_some _ htr))).trans ?_
  rfl

theorem decodeCheckFields_serialize (c : Check) (h : c.wf = true) :
    decodeCheckFields (serializeCheckFields c) none none none = some c := by
  have hf : c.flags < 2 ^ 32 := by simpa [Check.wf] using h
  rw [serializeCheckFields]
  rw [decodeCheckFields,
    show checkStep none none none "Account" (.str c.account) =
      some (some c.account, none, none) from rfl, Option.some_bind]
  rw [decodeCheckFields,
    show checkStep (some c.account) none none "Destination" (.str c.destination) =
      some (some c.account, some c.destination, none) from rfl, Option.some_bind]
  rw [decodeCheckFields,
    show checkStep (some c.account) (some c.destination) none "Flags" (serializeUInt c.flags) =
      (setSlot none (decodeU32 (serializeUInt c.flags))).map
        (fun x => (some c.account, some c.destination, x)) from rfl]
  rw [show decodeU32 (serializeUInt c.flags) = some c.flags from decodeUInt_num hf]
  rw [setSlot_none_some, Option.map_some', Option.some_bind]
  rfl

/-! ## LedgerEntry lemmas -/

theorem splitTag_cons (j : Json) (rest : List (String × Json))
    (h : rest.any (fun p => p.1 = "LedgerEntryType") = false) :
    splitTag (("LedgerEntryType", j) :: rest) = some (j, rest) := by
  rw [splitTag, if_pos rfl]
  simp [h]

theorem decodeLedgerEntry_obj_split (fs : List (String × Json)) (tag : Json)
    (rest : List (String × Json)) (hsplit : splitTag fs = some (tag, rest)) :
    decodeLedgerEntry (.obj fs) =
      (decodeEntryVariant tag).bind fun idx =>
        if idx = 0 then some .Unknown
        else if idx = 1 then (decodeAccountRootFields rest {}).map .AccountRoot
        else (decodeCheckFields rest none none none).map .Check := by
  rw [decodeLedgerEntry, hsplit, Option.some_bind]

theorem decodeLedgerEntry_serialize (e : LedgerEntry) (hu : e ≠ .Unknown)
    (h : e.wf = true) :
    decodeLedgerEntry (serializeLedgerEntry e) = some e := by
  cases e with
  | Unknown => exact absurd rfl hu
  | AccountRoot a =>
    have ha : a.wf = true := by simpa [LedgerEntry.wf] using h
    rw [serializeLedgerEntry,
      decodeLedgerEntry_obj_split _ _ _
        (splitTag_cons _ _ (by simp [serializeAccountRootFields])),
      show decodeEntryVariant (.str "AccountRoot") = some 1 from rfl,
      Option.some_bind, if_neg (by decide), if_pos rfl,
      decodeAccountRootFields_serialize a ha, Option.map_some']
  | Check c =>
    have hc : c.wf = true := by simpa [LedgerEntry.wf] using h
    rw [serializeLedgerEntry,
      decodeLedgerEntry_obj_split _ _ _
        (splitTag_cons _ _ (by simp [serializeCheckFields])),
      show decodeEntryVariant (.str "Check") = some 2 from rfl,
      Option.some_bind, if_neg (by decide), if_neg (by decide),
      decodeCheckFields_serialize c hc, Option.map_some']

/-! ## RequestId lemmas -/

theorem decodeRequestId_num (n : Int) : decodeRequestId (.num n) = none := rfl

theorem decodeRequestId_str (s : String) : decodeRequestId (.str s) = none := rfl

theorem decodeRequestId_serialize (rid : RequestId) (h : rid.wf = true) :
    decodeRequestId (serializeRequestId rid) = some rid := by
  cases rid with
  | Number n =>
    have hn : n < 2 ^ 64 := by simpa [RequestId.wf] using h
    rw [serializeRequestId,
      show decodeRequestId (.obj [("Number", .num (n : Int))]) =
        (decodeU64 (.num (n : Int))).map RequestId.Number from rfl,
      show decodeU64 (.num (n : Int)) = some n from decodeUInt_num' hn,
      Option.map_some']
  | String s =>
    rw [serializeRequestId]
    rfl

/-! ## Result and Response lemmas -/

theorem decodeResult_ok {T : Type} (decT : Json → Option T) (v : Json) (t : T)
    (h : decT v = some t) : decodeResult decT v = some (.Ok t) := by
  rw [decodeResult, h]

theorem decodeResult_error {T : Type} (decT : Json → Option T) (v : Json)
    (h : decT v = none) : decodeResult decT v = some (.Error v) := by
  rw [decodeResult, h]

theorem decodeResult_isSome {T : Type} (decT : Json → Option T) (v : Json) :
    (decodeResult decT v).isSome = true := by
  rw [decodeResult]
  cases decT v <;> rfl

theorem decodeResponseFields_cons {T : Type} (decT : Json → Option T)
    (k : String) (j : Json) (rest : List (String × Json)) (st st' : RState T)
    (hstep : responseStep decT st k j = some st') :
    decodeResponseFields decT ((k, j) :: rest) st =
      decodeResponseFields decT rest st' := by
  rw [decodeResponseFields, hstep, Option.some_bind]

theorem responseStep_id {T : Type} (decT : Json → Option T) (st : RState T)
    (v : Json) (x : Option RequestId) (hslot : st.id = none)
    (hv : decodeOption decodeRequestId v = some x) :
    responseStep decT st "id" v = some { st with id := some x } := by
  rw [responseStep, if_pos rfl, hslot, hv, setSlot_none_some, Option.map_some']

theorem responseStep_status {T : Type} (decT : Json → Option T) (st : RState T)
    (v : Json) (x : Option String) (hslot : st.status = none)
    (hv : decodeOption decodeString v = some x) :
    responseStep decT st "status" v = some { st with status := some x } := by
  rw [responseStep, if_neg (by decide), if_pos rfl, hslot, hv,
    setSlot_none_some, Option.map_some']

theorem responseStep_type {T : Type} (decT : Json → Option T) (st : RState T)
    (v : Json) (x : Option String) (hslot : st.type = none)
    (hv : decodeOption decodeString v = some x) :
    responseStep decT st "type" v = some { st with type := some x } := by
  rw [responseStep, if_neg (by decide), if_neg (by decide), if_pos rfl, hslot,
    hv, setSlot_none_some, Option.map_some']

theorem responseStep_result {T : Type} (decT : Json → Option T) (st : RState T)
    (v : Json) (x : Result T) (hslot : st.result = none)
    (hv : decodeResult decT v = some x) :
    responseStep decT st "result" v = some { st with result := some x } := by
  rw [responseStep, if_neg (by decide), if_neg (by decide), if_neg (by decide),
    if_pos rfl, hslot, hv, setSlot_none_some, Option.map_some']

theorem responseStep_warning {T : Type} (decT : Json → Option T) (st : RState T)
    (v : Json) (x : Option String) (hslot : st.warning = none)
    (hv : decodeOption decodeString v = some x) :
    responseStep decT st "warning" v = some { st with warning := some x } := by
  rw [responseStep, if_neg (by decide), if_neg (by decide), if_neg (by decide),
    if_neg (by decide), if_pos rfl, hslot, hv, setSlot_none_some, Option.map_some']

theorem responseStep_warnings {T : Type} (decT : Json → Option T) (st : RState T)
    (v : Json) (x : Option (List Json)) (hslot : st.warnings = none)
    (hv : decodeOption decodeValueList v = some x) :
    responseStep decT st "warnings" v = some { st with warnings := some x } := by
  rw [responseStep, if_neg (by decide), if_neg (by decide), if_neg (by decide),
    if_neg (by decide), if_neg (by decide), if_pos rfl, hslot, hv,
    setSlot_none_some, Option.map_some']

theorem responseStep_forwarded {T : Type} (decT : Json → Option T) (st : RState T)
    (v : Json) (x : Option Bool) (hslot : st.forwarded = none)
    (hv : decodeOption decodeBool v = some x) :
    responseStep decT st "forwarded" v = some { st with forwarded := some x } := by
  rw [responseStep, if_neg (by decide), if_neg (by decide), if_neg (by decide),
    if_neg (by decide), if_neg (by decide), if_neg (by decide), if_pos rfl,
    hslot, hv, setSlot_none_some, Option.map_some']

theorem responseStep_result_of_ne {T : Type} (decT : Json → Option T)
    (st st' : RState T) (k : String) (j : Json) (hk : k ≠ "result")
    (h : responseStep decT st k j = some st') : st'.result = st.result := by
  rw [responseStep] at h
  repeat' split at h
  all_goals first
    | exact absurd ‹k = "result"› hk
    | (obtain ⟨x, hx, rfl⟩ := Option.map_eq_some'.mp h; rfl)
    | (obtain rfl := Option.some.inj h; rfl)

theorem decodeResponseFields_no_result {T : Type} (decT : Json → Option T)
    (fs : List (String × Json)) (st : RState T) (hr : st.result = none)
    (h : ∀ p ∈ fs, p.1 ≠ "result") :
    decodeResponseFields decT fs st = none := by
  induction fs generalizing st with
  | nil =>
    rw [decodeResponseFields, responseFinish, hr]
  | cons p rest ih =>
    obtain ⟨k, j⟩ := p
    rw [decodeResponseFields]
    rcases hs : responseStep decT st k j with _ | st'
    · rfl
    · rw [Option.some_bind]
      exact ih st'
        (by rw [responseStep_result_of_ne decT st st' k j (h (k, j) (by simp)) hs, hr])
        (fun q hq => h q (by simp [hq]))

/-! ## Claim theorems -/

/-- Claim C1: the spec says a JSON object whose `LedgerEntryType` is
missing or unrecognized decodes as `Unknown` and never fails.  The code
has no `#[serde(other)]` fallback: decoding
`{"LedgerEntryType":"SomeFutureType","Account":"rX"}` fails with an
unknown-variant error, decoding an object with no `LedgerEntryType` fails
with a missing-field error, and `Unknown` is produced only when the tag is
literally the string `"Unknown"`. -/
theorem c1_unknown_entry_type_rejected :
    decodeLedgerEntry
        (.obj [("LedgerEntryType", .str "SomeFutureType"),
               ("Account", .str "rX")]) = none ∧
    decodeLedgerEntry (.obj [("Account", .str "rX"), ("Flags", .num 0)]) = none ∧
    decodeLedgerEntry (.obj [("LedgerEntryType", .str "Unknown")]) =
      some .Unknown := by
  refine ⟨?_, ?_, ?_⟩ <;> decide

/-- Claim C2: the `result` field of `Response<T>` decodes as an untagged
union that attempts the typed payload `T` first; for a JSON value that
does not decode as `T`, the decode succeeds with the error branch holding
the raw value; the decode of a present `result` value never fails. -/
theorem c2_result_untagged (T : Type) (decT : Json → Option T) (v : Json) :
    (decodeResult decT v).isSome = true ∧
    (∀ t, decT v = some t → decodeResult decT v = some (.Ok t)) ∧
    (decT v = none → decodeResult decT v = some (.Error v)) :=
  ⟨decodeResult_isSome decT v,
   fun t h => decodeResult_ok decT v t h,
   fun h => decodeResult_error decT v h⟩

/-- Witness for C2 at concrete inputs: a string that is not a `Drops`
value lands in the error branch holding the raw value; one that is lands
in the typed branch. -/
theorem c2_witness :
    decodeResult decodeDrops (Json.str "abc") =
      some (.Error (Json.str "abc")) ∧
    decodeResult decodeDrops (Json.str "7") = some (.Ok ⟨7⟩) :=
  ⟨(c2_result_untagged Drops decodeDrops (Json.str "abc")).2.2 (by decide),
   (c2_result_untagged Drops decodeDrops (Json.str "7")).2.1 ⟨7⟩ (by decide)⟩

/-- Claim C3: encoding `Drops(n)` produces the JSON string of its decimal
form — nonempty, all digits (so no separators and never a JSON number),
no leading zero except for the literal value 0 — and decoding that string
yields `Drops(n)` again. -/
theorem c3_drops_roundtrip (n : Nat) (h : n < 2 ^ 64) :
    serializeDrops ⟨n⟩ = .str (toDecimal n) ∧
    toDecimal n ≠ "" ∧
    (toDecimal n).data.all Char.isDigit = true ∧
    (n ≠ 0 → (toDecimal n).data.head? ≠ some '0') ∧
    (n = 0 → toDecimal n = "0") ∧
    decodeDrops (serializeDrops ⟨n⟩) = some ⟨n⟩ := by
  refine ⟨rfl, ?_, ?_, ?_, ?_, ?_⟩
  · intro hmk
    exact toDecimalAux_ne_nil n [] (by
      have : (toDecimal n).data = ([] : List Char) := by rw [hmk]
      simpa [toDecimal] using this)
  · rw [List.all_eq_true]
    exact fun c hc => toDecimalAux_all_digits n c (by simpa [toDecimal] using hc)
  · intro hn
    simpa [toDecimal] using toDecimalAux_head_ne_zero n hn
  · intro hn
    subst hn
    have h0 : toDecimalAux 0 [] = ['0'] := by
      rw [toDecimalAux_eq]
      norm_num
    rw [toDecimal, h0]
  · exact decodeDrops_serializeDrops (by simp [Drops.wf]; omega)

/-- Witness for C3 at `n = 500`. -/
theorem c3_witness :
    serializeDrops ⟨500⟩ = .str (toDecimal 500) ∧
    toDecimal 500 ≠ "" ∧
    (toDecimal 500).data.all Char.isDigit = true ∧
    (500 ≠ 0 → (toDecimal 500).data.head? ≠ some '0') ∧
    (500 = 0 → toDecimal 500 = "0") ∧
    decodeDrops (serializeDrops ⟨500⟩) = some ⟨500⟩ :=
  c3_drops_roundtrip 500 (by norm_num)

/-- Counterexample to C4 as stated: the claim says only strings that are
unsigned base-10 integers are accepted, but the wire string `"+100"`
(which carries a sign, hence is not all digits) also decodes, to
`Drops(100)`, because Rust's `u64::from_str` strips one leading `'+'`. -/
theorem c4_counterexample :
    decodeDrops (.str "+100") = some ⟨100⟩ ∧
    ("+100").data.all Char.isDigit = false := by
  refine ⟨?_, ?_⟩ <;> decide

/-- Claim C4 (amended): decoding `Drops` accepts exactly the JSON strings
that Rust `u64` parsing accepts — at least one ASCII digit after an
optional single leading `'+'`, value below `2 ^ 64`; `"100"` (and
`"+100"`) decode, while `"100.0"`, `"-1"`, `"abc"`, an overflowing digit
string, a bare JSON number and every other non-string JSON value fail. -/
theorem c4_drops_decode :
    decodeDrops (.str "100") = some ⟨100⟩ ∧
    decodeDrops (.str "+100") = some ⟨100⟩ ∧
    decodeDrops (.str "100.0") = none ∧
    decodeDrops (.str "-1") = none ∧
    decodeDrops (.str "abc") = none ∧
    decodeDrops (.str "18446744073709551616") = none ∧
    (∀ n : Int, decodeDrops (.num n) = none) ∧
    decodeDrops .null = none ∧
    (∀ j d, decodeDrops j = some d → ∃ s, j = .str s ∧ parseU64 s = some d.val) ∧
    (∀ s n, parseU64 s = some n →
       stripPlus s.data ≠ [] ∧ (stripPlus s.data).all Char.isDigit = true ∧
       digitsToNat (stripPlus s.data) = n ∧ n < 2 ^ 64) := by
  refine ⟨by decide, by decide, by decide, by decide, by decide, by decide,
    fun n => rfl, rfl, ?_, fun s n h => parseU64_sound h⟩
  intro j d h
  cases j with
  | str s =>
    refine ⟨s, rfl, ?_⟩
    rw [decodeDrops] at h
    rcases hp : parseU64 s with _ | m
    · rw [hp] at h
      exact absurd h (by simp)
    · rw [hp] at h
      obtain rfl := Option.some.inj h
      rfl
  | null => exact absurd h (by simp [decodeDrops])
  | bool b => exact absurd h (by simp [decodeDrops])
  | num m => exact absurd h (by simp [decodeDrops])
  | arr xs => exact absurd h (by simp [decodeDrops])
  | obj fs => exact absurd h (by simp [decodeDrops])

/-- Witness for C4's inversion and characterization clauses at concrete
inputs. -/
theorem c4_witness :
    (∃ s, Json.str "77" = .str s ∧ parseU64 s = some (Drops.mk 77).val) ∧
    (stripPlus "+9".data ≠ [] ∧ (stripPlus "+9".data).all Char.isDigit = true ∧
      digitsToNat (stripPlus "+9".data) = 9 ∧ 9 < 2 ^ 64) :=
  ⟨c4_drops_decode.2.2.2.2.2.2.2.2.1 (Json.str "77") ⟨77⟩ (by decide),
   c4_drops_decode.2.2.2.2.2.2.2.2.2 "+9" 9 (by decide)⟩

/-- Counterexample to C5 as stated: the claim says any JSON shape other
than a string or an object fails the `CurrencyAmount` decode, but serde's
untagged machinery also deserializes a struct from a *sequence*, so the
JSON array `["10","USD","rabc"]` decodes as the issued variant with the
fields taken positionally. -/
theorem c5_counterexample :
    decodeCurrencyAmount (.arr [.str "10", .str "USD", .str "rabc"]) =
      some (.IssuedCurrency ⟨"10", "USD", "rabc"⟩) := by decide

/-- Claim C5 (amended): `CurrencyAmount` decodes by shape — a string
accepted by the native `Drops` parse yields the native variant; a string
rejected by it is a hard failure (never silently read as issued); an
object with the three fields `value`/`currency`/`issuer` present as
strings (plus any other fields) yields the issued variant with no numeric
validation of `value`; an object missing one of the three fields fails;
`null`, booleans and numbers fail.  The one shape beyond the claim's
string/object dispatch is a JSON array, which serde decodes positionally
as the issued record when it has exactly three string elements. -/
theorem c5_currency_amount_dispatch :
    (∀ s n, parseU64 s = some n →
       decodeCurrencyAmount (.str s) = some (.XRP ⟨n⟩)) ∧
    (∀ s, parseU64 s = none → decodeCurrencyAmount (.str s) = none) ∧
    (∀ fs v c i, (fs.map Prod.fst).Nodup →
       lookupField fs "value" = some (.str v) →
       lookupField fs "currency" = some (.str c) →
       lookupField fs "issuer" = some (.str i) →
       decodeCurrencyAmount (.obj fs) = some (.IssuedCurrency ⟨v, c, i⟩)) ∧
    (∀ fs, (lookupField fs "value" = none ∨ lookupField fs "currency" = none ∨
        lookupField fs "issuer" = none) →
       decodeCurrencyAmount (.obj fs) = none) ∧
    decodeCurrencyAmount .null = none ∧
    (∀ b, decodeCurrencyAmount (.bool b) = none) ∧
    (∀ n, decodeCurrencyAmount (.num n) = none) ∧
    (∀ xs, decodeCurrencyAmount (.arr xs) =
       (decodeIssuedSeq xs).map .IssuedCurrency) := by
  refine ⟨?_, ?_, ?_, ?_, rfl, fun b => rfl, fun n => rfl, fun xs => rfl⟩
  · exact fun s n h => decodeCurrencyAmount_str_parse h
  · exact fun s h => decodeCurrencyAmount_str_fail h
  · intro fs v c i hnd hv hc hi
    rw [decodeCurrencyAmount_obj,
      decodeIssuedFields_lookup fs hnd none none none v c i
        (Or.inr ⟨rfl, hv⟩) (Or.inr ⟨rfl, hc⟩) (Or.inr ⟨rfl, hi⟩),
      Option.map_some']
  · intro fs h
    rw [decodeCurrencyAmount_obj]
    rcases h with h | h | h
    · rw [decodeIssuedFields_missing_value fs none none h]
      rfl
    · rw [decodeIssuedFields_missing_currency fs none none h]
      rfl
    · rw [decodeIssuedFields_missing_issuer fs none none h]
      rfl

/-- Witness for C5 at concrete inputs: `"10"` decodes native, `"10x"`
fails, the three-field object (with an extra unknown field) decodes
issued, and an object missing `issuer` fails. -/
theorem c5_witness :
    decodeCurrencyAmount (.str "10") = some (.XRP ⟨10⟩) ∧
    decodeCurrencyAmount (.str "10x") = none ∧
    decodeCurrencyAmount
      (.obj [("value", .str "1"), ("currency", .str "USD"),
             ("issuer", .str "r9"), ("extra", .num 3)]) =
      some (.IssuedCurrency ⟨"1", "USD", "r9"⟩) ∧
    decodeCurrencyAmount (.obj [("value", .str "1"), ("currency", .str "USD")]) =
      none :=
  ⟨c5_currency_amount_dispatch.1 "10" 10 (by decide),
   c5_currency_amount_dispatch.2.1 "10x" (by decide),
   c5_currency_amount_dispatch.2.2.1 _ "1" "USD" "r9" (by decide) rfl rfl rfl,
   c5_currency_amount_dispatch.2.2.2.1 _ (Or.inr (Or.inr rfl))⟩

/-- Claim C6: decode after encode is the identity on every non-`Unknown`
`LedgerEntry` and on every `CurrencyAmount` (for model values denoting
Rust values, i.e. with machine integers in range). -/
theorem c6_roundtrip :
    (∀ e : LedgerEntry, e ≠ .Unknown → e.wf = true →
       decodeLedgerEntry (serializeLedgerEntry e) = some e) ∧
    (∀ ca : CurrencyAmount, ca.wf = true →
       decodeCurrencyAmount (serializeCurrencyAmount ca) = some ca) :=
  ⟨decodeLedgerEntry_serialize, decodeCurrencyAmount_serialize⟩

/-- Witness for C6 at a concrete `Check` entry, a concrete `AccountRoot`
entry and a concrete issued amount. -/
theorem c6_witness :
    decodeLedgerEntry (serializeLedgerEntry (.Check ⟨"rA", "rB", 5⟩)) =
      some (.Check ⟨"rA", "rB", 5⟩) ∧
    decodeLedgerEntry (serializeLedgerEntry (.AccountRoot accountRootFixtureValue)) =
      some (.AccountRoot accountRootFixtureValue) ∧
    decodeCurrencyAmount (serializeCurrencyAmount (.IssuedCurrency ⟨"1", "USD", "r9"⟩)) =
      some (.IssuedCurrency ⟨"1", "USD", "r9"⟩) :=
  ⟨c6_roundtrip.1 _ (by decide) (by decide),
   c6_roundtrip.1 _ (by decide) (by decide),
   c6_roundtrip.2 _ (by decide)⟩

/-- Claim C7: decoding the minimal `AccountRoot` wire object (PascalCase
wire names, including the exact spelling `PreviousTxnID`) succeeds and
yields the `AccountRoot` variant with `balance = XRP (Drops 500)` and
every optional field absent. -/
theorem c7_account_root_decode :
    decodeLedgerEntry (.obj accountRootFixture) =
      some (.AccountRoot accountRootFixtureValue) := by decide

theorem decodeOption_not_null (dec : Json → Option α) (j : Json)
    (h : j ≠ .null) : decodeOption dec j = (dec j).map some := by
  cases j with
  | null => exact absurd rfl h
  | bool b => rfl
  | num n => rfl
  | str s => rfl
  | arr xs => rfl
  | obj fs => rfl

/-- Counterexample to C8 as stated: the claim says a bare JSON integer
decodes to the numeric variant and a bare JSON string to the string
variant, but `RequestId` has the derived (externally tagged)
representation, so both bare forms fail to decode. -/
theorem c8_counterexample :
    decodeRequestId (.num 5) = none ∧ decodeRequestId (.str "abc") = none :=
  ⟨rfl, rfl⟩

/-- Claim C8 (amended): `RequestId` uses serde's externally tagged wire
form: `{"Number": n}` decodes to (and is encoded from) the numeric
variant and `{"String": s}` to the string variant, while bare JSON
integers and strings fail; in particular a bare integer in the `id` field
makes the whole `Response` decode fail. -/
theorem c8_request_id_externally_tagged :
    (∀ n : Nat, n < 2 ^ 64 →
       decodeRequestId (.obj [("Number", .num (n : Int))]) = some (.Number n) ∧
       serializeRequestId (.Number n) = .obj [("Number", .num (n : Int))]) ∧
    (∀ s, decodeRequestId (.obj [("String", .str s)]) = some (.String s) ∧
       serializeRequestId (.String s) = .obj [("String", .str s)]) ∧
    (∀ n : Int, decodeRequestId (.num n) = none) ∧
    (∀ s, decodeRequestId (.str s) = none) ∧
    (∀ (T : Type) (decT : Json → Option T) (v : Json),
       decodeResponse decT (.obj [("id", .num 5), ("result", v)]) = none) := by
  refine ⟨?_, fun s => ⟨rfl, rfl⟩, fun n => rfl, fun s => rfl,
    fun T decT v => rfl⟩
  intro n hn
  refine ⟨?_, rfl⟩
  rw [show decodeRequestId (.obj [("Number", .num (n : Int))]) =
      (decodeU64 (.num (n : Int))).map RequestId.Number from rfl,
    show decodeU64 (.num (n : Int)) = some n from decodeUInt_num' hn,
    Option.map_some']

/-- Witness for C8 at `n = 5` and `s = "h"`. -/
theorem c8_witness :
    decodeRequestId (.obj [("Number", .num (5 : Int))]) = some (.Number 5) ∧
    serializeRequestId (.Number 5) = .obj [("Number", .num (5 : Int))] :=
  c8_request_id_externally_tagged.1 5 (by norm_num)

/-- Claim C9: every top-level field of `Response<T>` is optional except
`result`: an envelope carrying only `result` decodes with all six
metadata fields absent, an envelope carrying all seven fields decodes
with all of them present, and an object without a `result` field fails
to decode whatever else it contains. -/
theorem c9_response_optionality :
    (∀ (T : Type) (decT : Json → Option T) (v : Json) (r : Result T),
       decodeResult decT v = some r →
       decodeResponse decT (.obj [("result", v)]) =
         some { id := none, status := none, type := none, result := r,
                warning := none, warnings := none, forwarded := none }) ∧
    (∀ (T : Type) (decT : Json → Option T) (rid : RequestId)
       (st ty w : String) (ws : List Json) (fw : Bool) (v : Json)
       (r : Result T), rid.wf = true → decodeResult decT v = some r →
       decodeResponse decT
         (.obj [("id", serializeRequestId rid), ("status", .str st),
                ("type", .str ty), ("result", v), ("warning", .str w),
                ("warnings", .arr ws), ("forwarded", .bool fw)]) =
         some { id := some rid, status := some st, type := some ty,
                result := r, warning := some w, warnings := some ws,
                forwarded := some fw }) ∧
    (∀ (T : Type) (decT : Json → Option T) (fs : List (String × Json)),
       (∀ p ∈ fs, p.1 ≠ "result") → decodeResponse decT (.obj fs) = none) := by
  refine ⟨?_, ?_, ?_⟩
  · intro T decT v r hr
    rw [decodeResponse,
      decodeResponseFields_cons decT _ _ _ _ _
        (responseStep_result decT _ _ _ rfl hr),
      decodeResponseFields]
    rfl
  · intro T decT rid st ty w ws fw v r hwf hr
    have hid : decodeOption decodeRequestId (serializeRequestId rid) =
        some (some rid) := by
      have hne : serializeRequestId rid ≠ .null := by
        cases rid <;> simp [serializeRequestId]
      rw [decodeOption_not_null _ _ hne, decodeRequestId_serialize rid hwf,
        Option.map_some']
    rw [decodeResponse,
      decodeResponseFields_cons decT _ _ _ _ _
        (responseStep_id decT _ _ _ rfl hid),
      decodeResponseFields_cons decT _ _ _ _ _
        (responseStep_status decT _ _ _ rfl
          (show decodeOption decodeString (.str st) = some (some st) from rfl)),
      decodeResponseFields_cons decT _ _ _ _ _
        (responseStep_type decT _ _ _ rfl
          (show decodeOption decodeString (.str ty) = some (some ty) from rfl)),
      decodeResponseFields_cons decT _ _ _ _ _
        (responseStep_result decT _ _ _ rfl hr),
      decodeResponseFields_cons decT _ _ _ _ _
        (responseStep_warning decT _ _ _ rfl
          (show decodeOption decodeString (.str w) = some (some w) from rfl)),
      decodeResponseFields_cons decT _ _ _ _ _
        (responseStep_warnings decT _ _ _ rfl
          (show decodeOption decodeValueList (.arr ws) = some (some ws) from rfl)),
      decodeResponseFields_cons decT _ _ _ _ _
        (responseStep_forwarded decT _ _ _ rfl
          (show decodeOption decodeBool (.bool fw) = some (some fw) from rfl)),
      decodeResponseFields]
    rfl
  · intro T decT fs h
    rw [decodeResponse]
    exact decodeResponseFields_no_result decT fs {} rfl h

/-- Witness for C9 with the identity payload decoder at concrete
envelopes. -/
theorem c9_witness :
    decodeResponse (fun j => some j) (.obj [("result", .null)]) =
      some { id := none, status := none, type := none, result := .Ok .null,
             warning := none, warnings := none, forwarded := none } ∧
    decodeResponse (fun j => some j)
        (.obj [("id", serializeRequestId (.Number 1)),
               ("status", .str "success"), ("type", .str "response"),
               ("result", .null), ("warning", .str "load"),
               ("warnings", .arr []), ("forwarded", .bool true)]) =
      some { id := some (.Number 1), status := some "success",
             type := some "response", result := .Ok .null,
             warning := some "load", warnings := some [],
             forwarded := some true } ∧
    decodeResponse (fun j => some j) (.obj [("status", .str "success")]) =
      none :=
  ⟨c9_response_optionality.1 Json (fun j => some j) .null (.Ok .null) rfl,
   c9_response_optionality.2.1 Json (fun j => some j) (.Number 1) "success"
     "response" "load" [] true .null (.Ok .null) (by decide) rfl,
   c9_response_optionality.2.2 Json (fun j => some j) _ (by decide)⟩

/-- Claim C10: derived struct decoding ignores unrecognized extra fields:
an object holding the three required `IssuedCurrencyAmount` fields plus
arbitrary unknown fields still decodes (to the same value), and the
`AccountRoot` fixture object extended with arbitrary unknown fields still
decodes to the fixture value. -/
theorem c10_unknown_fields_ignored :
    (∀ (extras : List (String × Json)) (v c i : String),
       (∀ p ∈ extras, p.1 ∉ (["value", "currency", "issuer"] : List String)) →
       decodeIssuedCurrencyAmount
         (.obj (("value", .str v) :: ("currency", .str c) ::
                ("issuer", .str i) :: extras)) = some ⟨v, c, i⟩) ∧
    (∀ extras : List (String × Json),
       (∀ p ∈ extras, p.1 ∉ ("LedgerEntryType" :: arKnownKeys)) →
       decodeLedgerEntry (.obj (accountRootFixture ++ extras)) =
         some (.AccountRoot accountRootFixtureValue)) := by
  constructor
  · intro extras v c i h
    rw [decodeIssuedCurrencyAmount, decodeIssuedFields,
      show issuedStep none none none "value" (.str v) =
        some (some v, none, none) from rfl, Option.some_bind,
      decodeIssuedFields,
      show issuedStep (some v) none none "currency" (.str c) =
        some (some v, some c, none) from rfl, Option.some_bind,
      decodeIssuedFields,
      show issuedStep (some v) (some c) none "issuer" (.str i) =
        some (some v, some c, some i) from rfl, Option.some_bind,
      decodeIssuedFields_unknown extras h]
    rfl
  · intro extras h
    have hexk : ∀ p ∈ extras, p.1 ∉ arKnownKeys := by
      intro p hp
      have hh := h p hp
      simp only [List.mem_cons, not_or] at hh
      intro hmem
      exact hh.2 hmem
    have hextag : extras.any (fun p => p.1 = "LedgerEntryType") = false := by
      rw [List.any_eq_false]
      intro p hp
      have hh := h p hp
      simp only [List.mem_cons, not_or] at hh
      simpa using hh.1
    simp only [accountRootFixture, List.cons_append, List.nil_append]
    have hany : (("Account", Json.str "rX") :: ("Balance", Json.str "500") ::
        ("Flags", Json.num 0) :: ("OwnerCount", Json.num 0) ::
        ("PreviousTxnID", Json.str "ABCD") :: ("PreviousTxnLgrSeq", Json.num 1) ::
        ("Sequence", Json.num 1) :: extras).any
          (fun p => p.1 = "LedgerEntryType") = false := by
      simp only [List.any_cons, hextag]
      decide
    rw [decodeLedgerEntry_obj_split _ _ _ (splitTag_cons _ _ hany),
      show decodeEntryVariant (.str "AccountRoot") = some 1 from rfl,
      Option.some_bind, if_neg (by decide), if_pos rfl]
    have hdec : decodeAccountRootFields (("Account", Json.str "rX") ::
        ("Balance", Json.str "500") :: ("Flags", Json.num 0) ::
        ("OwnerCount", Json.num 0) :: ("PreviousTxnID", Json.str "ABCD") ::
        ("PreviousTxnLgrSeq", Json.num 1) :: ("Sequence", Json.num 1) ::
        extras) {} = some accountRootFixtureValue := by
      refine (decodeAccountRootFields_cons _ _ _ _ _
        (arStep_account _ _ _ rfl
          (show decodeString (.str "rX") = some "rX" from rfl))).trans ?_
      refine (decodeAccountRootFields_cons _ _ _ _ _
        (arStep_balance _ _ _ rfl
          (show decodeCurrencyAmount (.str "500") = some (.XRP ⟨500⟩)
            by decide))).trans ?_
      refine (decodeAccountRootFields_cons _ _ _ _ _
        (arStep_flags _ _ _ rfl
          (show decodeU32 (.num 0) = some 0 by decide))).trans ?_
      refine (decodeAccountRootFields_cons _ _ _ _ _
        (arStep_owner_count _ _ _ rfl
          (show decodeU32 (.num 0) = some 0 by decide))).trans ?_
      refine (decodeAccountRootFields_cons _ _ _ _ _
        (arStep_previous_txn_id _ _ _ rfl
          (show decodeString (.str "ABCD") = some "ABCD" from rfl))).trans ?_
      refine (decodeAccountRootFields_cons _ _ _ _ _
        (arStep_previous_txn_lgr_seq _ _ _ rfl
          (show decodeU32 (.num 1) = some 1 by decide))).trans ?_
      refine (decodeAccountRootFields_cons _ _ _ _ _
        (arStep_sequence _ _ _ rfl
          (show decodeU32 (.num 1) = some 1 by decide))).trans ?_
      rw [decodeAccountRootFields_unknown extras _ hexk]
      rfl
    rw [hdec, Option.map_some']

/-- Witness for C10 with one concrete unknown extra field in each
object. -/
theorem c10_witness :
    decodeIssuedCurrencyAmount
      (.obj [("value", .str "1"), ("currency", .str "USD"),
             ("issuer", .str "r9"), ("Foo", .num 3)]) =
      some ⟨"1", "USD", "r9"⟩ ∧
    decodeLedgerEntry
      (.obj (accountRootFixture ++ [("Foo", .num 3)])) =
      some (.AccountRoot accountRootFixtureValue) :=
  ⟨c10_unknown_fields_ignored.1 [("Foo", .num 3)] "1" "USD" "r9" (by decide),
   c10_unknown_fields_ignored.2 [("Foo", .num 3)] (by decide)⟩

end XrplRs
